import Mathlib

/-!
Verification development for the cursor-stats usage aggregation engine.

This file shallowly embeds the core of the repository:
* `src/services/database.ts` (invoice fetching/parsing: `processMidMonthPayment`,
  `calculatePaddingWidths`, `fetchMonthData`, `checkUsageBasedStatus`,
  `fetchCursorStats` billing-anchor logic),
* `src/services/team.ts` (`checkTeamMembership`),
* `src/utils/updateStats.ts` (month selection, premium percentage, unknown-model
  dedup) and the currency converter (`convertAmount`, `getCurrencySymbol`).

Modelling conventions:
* TypeScript `number` amounts are modelled as `ℚ` (exact rationals); the only
  floating-point pathology relevant to the claims, division by zero producing
  `Infinity`/`NaN`, is modelled explicitly by the `JSNum` type.
* `T | undefined` is modelled as `Option T`.
* Asynchronous network calls are external collaborators: their outcomes are
  passed to the embedded functions as `Except`/function parameters, so that a
  function which catches an error is total and a function which rethrows
  returns `Except.error`.
* The localization function `t` of `src/utils/i18n.ts` is modelled as the
  identity on localization keys (it is injective on the keys used here).
* JavaScript regular expressions used by the invoice parser are implemented
  directly as functions on character lists, following the backtracking
  semantics of the concrete patterns (documented at each definition).
-/

namespace CursorStats

/-- `pre` is a prefix of `l` (boolean, over characters). -/
def prefixOfChars : List Char → List Char → Bool
  | [], _ => true
  | _ :: _, [] => false
  | a :: as, b :: bs => a == b && prefixOfChars as bs

/-- `sub` occurs contiguously inside `l` (boolean, over characters). -/
def infixOfChars (sub : List Char) : List Char → Bool
  | [] => prefixOfChars sub []
  | b :: bs => prefixOfChars sub (b :: bs) || infixOfChars sub bs

/-- JS `String.prototype.includes`: substring containment (case sensitive). -/
def includesStr (s sub : String) : Bool :=
  infixOfChars sub.toList s.toList

/-- JS `String.prototype.toLowerCase` (character-wise lowercasing; the
strings handled by the embedded code are ASCII). -/
def strToLower (s : String) : String :=
  String.mk (s.toList.map Char.toLower)

/-- Digits of a decimal numeral to a natural number
(`Number.parseInt` on a string of digits; float imprecision for huge
numerals is not modelled). -/
def digitsToNat (ds : List Char) : Nat :=
  ds.foldl (fun n c => n * 10 + (c.toNat - 48)) 0

/-- JS regex `/^(\d+)/` applied with `.match`: the maximal run of leading
digits, if nonempty. -/
def leadingNat (s : String) : Option Nat :=
  let ds := s.toList.takeWhile Char.isDigit
  if ds.isEmpty then none else some (digitsToNat ds)

/-- JS `String.prototype.padStart(width, c)`. -/
def padStart (s : String) (width : Nat) (c : Char) : String :=
  String.mk (List.replicate (width - s.length) c) ++ s

/-- Two-digit zero-padded rendering of `n < 100`. -/
def pad2 (n : Nat) : String :=
  (if n < 10 then "0" else "") ++ toString n

/-- Three-digit zero-padded rendering of `n < 1000`. -/
def pad3 (n : Nat) : String :=
  (if n < 10 then "00" else if n < 100 then "0" else "") ++ toString n

/-- JS `Number.prototype.toFixed(2)` on an exact rational.  All uses in the
embedded code apply it to exact multiples of `1/100`, where no rounding
occurs; for other values we use mathematical round-half-up, matching the
ideal decimal rounding of `toFixed`. -/
def toFixed2 (q : ℚ) : String :=
  let n : ℤ := round (q * 100)
  let sign := if n < 0 then "-" else ""
  let m := n.natAbs
  sign ++ toString (m / 100) ++ "." ++ pad2 (m % 100)

/-- JS `Number.prototype.toFixed(3)` on an exact rational (ideal decimal
rounding, round-half-up; binary-float tie noise is not modelled and is not
exercised by any theorem below). -/
def toFixed3 (q : ℚ) : String :=
  let n : ℤ := round (q * 1000)
  let sign := if n < 0 then "-" else ""
  let m := n.natAbs
  sign ++ toString (m / 1000) ++ "." ++ pad3 (m % 1000)

/-- The localization function `t` of `src/utils/i18n.ts`, modelled as the
identity on localization keys. -/
def tr (key : String) : String := key

/-! ## JavaScript numbers with division by zero

`JSNum` models the IEEE-754 values reachable by the percentage computation in
`updateStats.ts`: finite values are exact rationals, plus `Infinity`,
`-Infinity` and `NaN`.  (There is no signed zero; no claim depends on it.) -/

inductive JSNum where
  | num : ℚ → JSNum
  | posInf : JSNum
  | negInf : JSNum
  | nan : JSNum
deriving DecidableEq

/-- JS division, including the division-by-zero cases:
`x/0` is `Infinity`/`-Infinity` for `x ≠ 0` and `NaN` for `x = 0`. -/
def jsDiv : JSNum → JSNum → JSNum
  | .num a, .num b =>
      if b = 0 then (if a = 0 then .nan else if a > 0 then .posInf else .negInf)
      else .num (a / b)
  | .num _, .posInf => .num 0
  | .num _, .negInf => .num 0
  | .posInf, .num b => if b ≥ 0 then .posInf else .negInf
  | .negInf, .num b => if b ≥ 0 then .negInf else .posInf
  | .posInf, .posInf => .nan
  | .posInf, .negInf => .nan
  | .negInf, .posInf => .nan
  | .negInf, .negInf => .nan
  | .nan, _ => .nan
  | _, .nan => .nan

/-- JS multiplication on `JSNum` (infinities times zero give `NaN`). -/
def jsMul : JSNum → JSNum → JSNum
  | .num a, .num b => .num (a * b)
  | .num a, .posInf => if a = 0 then .nan else if a > 0 then .posInf else .negInf
  | .num a, .negInf => if a = 0 then .nan else if a > 0 then .negInf else .posInf
  | .posInf, .num b => if b = 0 then .nan else if b > 0 then .posInf else .negInf
  | .negInf, .num b => if b = 0 then .nan else if b > 0 then .negInf else .posInf
  | .posInf, .posInf => .posInf
  | .posInf, .negInf => .negInf
  | .negInf, .posInf => .negInf
  | .negInf, .negInf => .posInf
  | .nan, _ => .nan
  | _, .nan => .nan

/-- JS `Math.round`: `⌊x + 1/2⌋` on finite values, identity on
`Infinity`/`-Infinity`/`NaN`. -/
def jsRound : JSNum → JSNum
  | .num a => .num (⌊a + 1/2⌋ : ℤ)
  | .posInf => .posInf
  | .negInf => .negInf
  | .nan => .nan

/-- `Number.isFinite` semantics. -/
def jsIsFinite : JSNum → Bool
  | .num _ => true
  | _ => false

/-! ## Currency converter (`src/utils/updateStats.ts`, currency section)

`fetchExchangeRates` (network call plus rate-cache read/write) is the external
boundary of `convertAmount`; its outcome is passed in as an
`Except String CurrencyRates` parameter.  `convertAmount` additionally returns
a `Bool` recording whether `fetchExchangeRates` was invoked at all: the cache
file is read and written only inside `fetchExchangeRates`, so `false` means no
network access and no cache touch. -/

/-- The exchange-rate feed: `{ date, usd: mapping currency-code → rate }`,
the mapping modelled as an association list. -/
structure CurrencyRates where
  date : String
  usd : List (String × ℚ)
deriving DecidableEq

/-- JS object-property lookup `rates.usd[code]`. -/
def lookupRate (usd : List (String × ℚ)) (code : String) : Option ℚ :=
  (usd.find? (fun p => p.1 == code)).map (·.2)

/-- `getCurrencySymbol` of `src/utils/updateStats.ts`: the symbol map, with
the currency code itself as default. -/
def getCurrencySymbol (currencyCode : String) : String :=
  let symbolMap : List (String × String) :=
    [("USD", "$"), ("EUR", "€"), ("GBP", "£"), ("JPY", "¥"), ("AUD", "A$"),
     ("CAD", "C$"), ("CHF", "CHF"), ("CNY", "¥"), ("INR", "₹"), ("MXN", "Mex$"),
     ("BRL", "R$"), ("RUB", "₽"), ("KRW", "₩"), ("SGD", "S$"), ("NZD", "NZ$"),
     ("TRY", "₺"), ("ZAR", "R"), ("SEK", "kr"), ("NOK", "kr"), ("DKK", "kr"),
     ("HKD", "HK$"), ("TWD", "NT$"), ("PHP", "₱"), ("THB", "฿"), ("IDR", "Rp"),
     ("VND", "₫"), ("ILS", "₪"), ("AED", "د.إ"), ("SAR", "﷼"), ("MYR", "RM"),
     ("PLN", "zł"), ("CZK", "Kč"), ("HUF", "Ft"), ("RON", "lei"), ("BGN", "лв"),
     ("HRK", "kn"), ("EGP", "E£"), ("QAR", "ر.ق"), ("KWD", "د.ك"), ("MAD", "د.م.")]
  match (symbolMap.find? (fun p => p.1 == currencyCode)).map (·.2) with
  | some s => s
  | none => currencyCode

/-- The `{ value, symbol }` record returned by `convertAmount`. -/
structure ConversionResult where
  value : ℚ
  symbol : String
deriving DecidableEq

/-- `convertAmount` of `src/utils/updateStats.ts`.

* `targetCurrency == "USD"` short-circuits to the identity before the fetch.
* Otherwise the outcome of `fetchExchangeRates()` is consumed: a thrown error
  is caught by the surrounding `try`/`catch` and falls back to the USD amount;
  a missing (or zero, since `!rate` is a JS falsy test) rate also falls back.
* The returned `Bool` is `true` iff `fetchExchangeRates` was invoked.
The function is total: the catch-all branch means no error escapes it. -/
def convertAmount (amount : ℚ) (targetCurrency : String)
    (fetched : Except String CurrencyRates) : ConversionResult × Bool :=
  if targetCurrency == "USD" then
    (⟨amount, "$"⟩, false)
  else
    match fetched with
    | .error _ => (⟨amount, "$"⟩, true)
    | .ok rates =>
      let rate := lookupRate rates.usd (strToLower targetCurrency)
      match rate with
      | none => (⟨amount, "$"⟩, true)
      | some r =>
        if r == 0 then (⟨amount, "$"⟩, true)
        else (⟨amount * r, getCurrencySymbol targetCurrency⟩, true)

/-! ## Usage-based status (`checkUsageBasedStatus`, `src/services/database.ts`) -/

/-- The usage-limit endpoint response (`UsageLimitResponse`):
`hardLimit?: number`, `noUsageBasedAllowed?: boolean`. -/
structure UsageLimitResponse where
  hardLimit : Option ℚ
  noUsageBasedAllowed : Option Bool
deriving DecidableEq

/-- The `{ isEnabled, limit? }` record returned by `checkUsageBasedStatus`. -/
structure UsageBasedStatus where
  isEnabled : Bool
  limit : Option ℚ
deriving DecidableEq

/-- `checkUsageBasedStatus` of `src/services/database.ts`: consumes the
outcome of `getCurrentUsageLimit(token)`.  On success it returns
`{ isEnabled: !response.noUsageBasedAllowed, limit: response.hardLimit }`
(`!x` is the JS falsy test, so an absent flag enables); on any thrown error it
catches, logs and returns `{ isEnabled: false }` with no `limit` field.  The
function is total: no error propagates to the caller. -/
def checkUsageBasedStatus (call : Except String UsageLimitResponse) :
    UsageBasedStatus :=
  match call with
  | .ok response =>
      { isEnabled := !(response.noUsageBasedAllowed == some true),
        limit := response.hardLimit }
  | .error _ => { isEnabled := false, limit := none }

/-! ## Invoice line regular expressions (`src/services/database.ts`)

The concrete JS regexes of the invoice parser are implemented directly on
character lists.  Each implementation documents the pattern it realises and
follows the JS backtracking semantics of that concrete pattern. -/

/-- `.` of a JS regex (no `s` flag): any character except newline. -/
def jsDotChar (c : Char) : Bool := c != '\n'

/-- Case-insensitive prefix test; the pattern is given in lowercase. -/
def ciPrefixOfChars : List Char → List Char → Bool
  | [], _ => true
  | _ :: _, [] => false
  | p :: ps, c :: cs => c.toLower == p && ciPrefixOfChars ps cs

/-- A character of the JS class `[\w.-]`. -/
def isWordDotDash (c : Char) : Bool :=
  c.isAlphanum || c == '_' || c == '.' || c == '-'

/-- `/^(\d+) token-based usage calls to/` (the padding pre-pass variant):
leading digits followed by the literal. -/
def paddingTokenBasedCount (s : String) : Option Nat :=
  let cs := s.toList
  let ds := cs.takeWhile Char.isDigit
  if ds.isEmpty then none
  else if prefixOfChars " token-based usage calls to".toList (cs.drop ds.length) then
    some (digitsToNat ds)
  else none

/-- `/^(\d+) token-based usage calls to ([\w.-]+), totalling: \$(?:[\d.]+)/`.
The class `[\w.-]` excludes `,`, so the greedy capture is exactly the maximal
run of class characters and no backtracking can produce another match. -/
def tokenBasedMatch (s : String) : Option (Nat × String) :=
  let cs := s.toList
  let ds := cs.takeWhile Char.isDigit
  if ds.isEmpty then none
  else
    let r1 := cs.drop ds.length
    let lit1 := " token-based usage calls to ".toList
    if !prefixOfChars lit1 r1 then none
    else
      let r2 := r1.drop lit1.length
      let m := r2.takeWhile isWordDotDash
      if m.isEmpty then none
      else
        let r3 := r2.drop m.length
        let lit2 := ", totalling: $".toList
        if !prefixOfChars lit2 r3 then none
        else
          let r4 := r3.drop lit2.length
          if (r4.takeWhile (fun c => c.isDigit || c == '.')).isEmpty then none
          else some (digitsToNat ds, String.mk m)

/-- The terminator alternation `(?: beyond|\*| per|$)` of the original-format
pattern (case-insensitive except the literal `*`). -/
def originalMatchTerm (l : List Char) : Bool :=
  ciPrefixOfChars " beyond".toList l || prefixOfChars "*".toList l ||
    ciPrefixOfChars " per".toList l || l.isEmpty

/-- The optional suffix `(?: request| calls)?` followed by the terminator,
alternatives tried in the regex order (suffix present first). -/
def originalMatchTail (l : List Char) : Bool :=
  (ciPrefixOfChars " request".toList l && originalMatchTerm (l.drop 8)) ||
  (ciPrefixOfChars " calls".toList l && originalMatchTerm (l.drop 6)) ||
  originalMatchTerm l

/-- The lazy group `(.+?)` of the original-format pattern: the least length
`n ≥ 1` of non-newline characters after which the tail matches. -/
def originalMatchLazy (tl : List Char) : Option Nat :=
  (List.range tl.length).findSome? (fun k =>
    let n := k + 1
    if (tl.take n).all jsDotChar && originalMatchTail (tl.drop n) then some n
    else none)

/-- `/^(\d+)\s+(.+?)(?: request| calls)?(?: beyond|\*| per|$)/i`, returning
(group 1 as a number, group 2).  Backtracking order of the JS engine: `\d+`
is effectively deterministic (a shorter run is followed by a digit, which
`\s` cannot match); `\s+` is greedy and gives characters back to the lazy
group only when no completion exists, so whitespace lengths are tried from
maximal down to 1 and for each, the lazy group grows from 1 upward. -/
def originalMatch (s : String) : Option (Nat × String) :=
  let cs := s.toList
  let ds := cs.takeWhile Char.isDigit
  if ds.isEmpty then none
  else
    let rest := cs.drop ds.length
    let ws := rest.takeWhile Char.isWhitespace
    if ws.isEmpty then none
    else
      (List.range ws.length).findSome? (fun j =>
        let wsLen := ws.length - j
        let tl := rest.drop wsLen
        (originalMatchLazy tl).map (fun n => (digitsToNat ds, String.mk (tl.take n))))

/-- `/extra fast premium requests? \(([^)]+)\)/i` tried at one start
position: the literal (case-insensitively), then the greedy optional `s`
(tried present first), then a space, `(`, a nonempty run of non-`)`
characters (the capture, returned with original casing), and `)`. -/
def extraFastAt (cs : List Char) : Option String :=
  match ciPrefixOfChars "extra fast premium request".toList cs with
  | false => none
  | true =>
    let afterLit := cs.drop "extra fast premium request".length
    let tryTail := fun (r : List Char) =>
      match r with
      | ' ' :: '(' :: r2 =>
        let cap := r2.takeWhile (fun c => c != ')')
        if cap.isEmpty then none
        else
          match r2.drop cap.length with
          | ')' :: _ => some (String.mk cap)
          | _ => none
      | _ => none
    match afterLit with
    | c :: r2 =>
      if c.toLower == 's' then
        match tryTail r2 with
        | some cap => some cap
        | none => tryTail afterLit
      else tryTail afterLit
    | [] => none

/-- Leftmost-match scan for `extraFastAt`. -/
def extraFastScan : List Char → Option String
  | [] => none
  | c :: cs =>
    match extraFastAt (c :: cs) with
    | some cap => some cap
    | none => extraFastScan cs

/-- `item.description.match(/extra fast premium requests? \(([^)]+)\)/i)?.[1]`. -/
def extraFastModelMatch (s : String) : Option String :=
  extraFastScan s.toList

/-! ## Model parsing strategies (`src/services/database.ts`, lines 408-445)

`genericModelPattern` (the curated known-model regex) is matched against the
whole description before the strategy list is consulted; the regex engine for
that pattern is treated as an external component and its result
(`specificModelMatch`, the first capture group, or `none` when it does not
match) is a parameter of the functions below, exactly as the code stores it in
a local before building the strategy array. -/

/-- The `{ modelName, isToolCall }` result of a parsing strategy. -/
structure ModelParseResult where
  modelName : String
  isToolCall : Bool
deriving DecidableEq

/-- The `modelParsingStrategies` array, in source order: each entry is the
value of its `condition()` paired with the value its `parser()` would
return.  Order: 1. `description.includes("tool calls")`,
2. `!!specificModelMatch`, 3. `description.includes("extra fast premium
request")`. -/
def modelParsingStrategies (description : String)
    (specificModelMatch : Option String) : List (Bool × ModelParseResult) :=
  [ (includesStr description "tool calls",
      { modelName := tr "api.toolCalls", isToolCall := true }),
    (specificModelMatch.isSome,
      { modelName := match specificModelMatch with
                     | some m => m
                     | none => tr "statusBar.unknownModel",
        isToolCall := false }),
    (includesStr description "extra fast premium request",
      { modelName := match extraFastModelMatch description with
                     | some m => m
                     | none => tr "api.fastPremium",
        isToolCall := false }) ]

/-- `modelParsingStrategies.find(s => s.condition())` followed by the
fallback branch (unknown-model sentinel) when no strategy matches. -/
def applyModelParsingStrategies (description : String)
    (specificModelMatch : Option String) : ModelParseResult :=
  match (modelParsingStrategies description specificModelMatch).find? (·.1) with
  | some s => s.2
  | none => { modelName := tr "statusBar.unknownModel", isToolCall := false }

/-! ## Monthly invoice processing (`src/services/database.ts`) -/

/-- One raw invoice line: `{ description: string, cents?: number }`. -/
structure InvoiceItem where
  description : String
  cents : Option Int
deriving DecidableEq

/-- A processed usage item (`UsageItem` of `src/interfaces/types.ts` as used
by `database.ts`): mid-month synthetic items set only the first three
fields. -/
structure UsageItem where
  calculation : String
  totalDollars : String
  description : String
  modelNameForTooltip : Option String
  isDiscounted : Option Bool
deriving DecidableEq

/-- The raw monthly invoice feed:
`{ items?: InvoiceItem[], hasUnpaidMidMonthInvoice?: boolean }`. -/
structure MonthlyInvoiceApiResponse where
  items : Option (List InvoiceItem)
  hasUnpaidMidMonthInvoice : Option Bool
deriving DecidableEq

/-- The `{ items, hasUnpaidMidMonthInvoice, midMonthPayment }` record built
by `fetchMonthData`. -/
structure MonthData where
  items : List UsageItem
  hasUnpaidMidMonthInvoice : Bool
  midMonthPayment : ℚ
deriving DecidableEq

/-- The synthetic payment `UsageItem` literal built by
`processMidMonthPayment`: both its display strings show the updated running
total, and only the first three fields are set. -/
def midMonthUsageItem (description : String) (updatedTotal : ℚ) : UsageItem :=
  { calculation := tr "api.midMonthPayment" ++ ": $" ++ toFixed2 updatedTotal,
    totalDollars := "-$" ++ toFixed2 updatedTotal,
    description := description,
    modelNameForTooltip := none,
    isDiscounted := none }

/-- `processMidMonthPayment` of `src/services/database.ts` (lines 219-247):
for a line whose description contains `"Mid-month usage paid"` and whose
`cents` is present, adds `|cents|/100` to the running total and builds the
synthetic payment item displaying the updated running total; otherwise
returns `null`. -/
def processMidMonthPayment (item : InvoiceItem) (currentMidMonthTotal : ℚ) :
    Option (ℚ × UsageItem) :=
  if !includesStr item.description "Mid-month usage paid" then none
  else
    match item.cents with
    | none => none
    | some c =>
      let paymentAmount : ℚ := |(c : ℚ)| / 100
      let updatedTotal := currentMidMonthTotal + paymentAmount
      some (updatedTotal, midMonthUsageItem item.description updatedTotal)

/-- `calculatePaddingWidths` of `src/services/database.ts` (lines 298-344):
first pass over the invoice computing the width of the maximal request count
and the width of the maximal formatted per-request cost, skipping lines
without `cents` and mid-month payment lines. -/
def calculatePaddingWidths (items : List InvoiceItem) : Nat × Nat :=
  let step := fun (acc : Nat × ℚ) (item : InvoiceItem) =>
    match item.cents with
    | none => acc
    | some c =>
      if includesStr item.description "Mid-month usage paid" then acc
      else
        let currentItemRequestCount :=
          match paddingTokenBasedCount item.description with
          | some n => n
          | none => (leadingNat item.description).getD 0
        if currentItemRequestCount > 0 then
          (max acc.1 currentItemRequestCount,
           max acc.2 ((c : ℚ) / currentItemRequestCount))
        else acc
  let res := items.foldl step (0, 0)
  let paddingWidth := if res.1 > 0 then (toString res.1).length else 1
  let costPaddingWidth := (toFixed3 (res.2 / 100)).length
  (paddingWidth, costPaddingWidth)

/-- The description-parsing step of the non-mid-month branch of the
`fetchMonthData` loop: the token-based pattern first, then the original
pattern combined with the model parsing strategies, then the bare
leading-count fallback (unknown model); `none` when the line is truly
unparsable (`continue` in the source).  Returns (request count, model name,
`isTotallingItem`).  `gm` is the external `genericModelPattern` engine (see
`modelParsingStrategies`). -/
def parseRegularItem (gm : String → Option String) (description : String) :
    Option (Nat × String × Bool) :=
  match tokenBasedMatch description with
  | some (c, m) => some (c, m, true)
  | none =>
    match originalMatch description with
    | some (c, _) =>
      let specificModelMatch := gm description
      let pr := applyModelParsingStrategies description specificModelMatch
      some (c, pr.modelName, false)
    | none =>
      match leadingNat description with
      | some c => some (c, tr "statusBar.unknownModel", false)
      | none => none

/-- The item construction of the non-mid-month branch: skip a zero request
count, otherwise build the formatted usage item. -/
def regularItem (gm : String → Option String)
    (paddingWidth costPaddingWidth : Nat)
    (description : String) (cents : Int) : Option UsageItem :=
  match parseRegularItem gm description with
  | none => none
  | some (requestCount, parsedModelName, isTotallingItem) =>
    if requestCount == 0 then none
    else
      let costPerRequestCents : ℚ := (cents : ℚ) / requestCount
      let totalDollars : ℚ := (cents : ℚ) / 100
      let paddedRequestCount := padStart (toString requestCount) paddingWidth '0'
      let costFormatted :=
        padStart (toFixed3 (costPerRequestCents / 100)) costPaddingWidth '0'
      let tilde := if isTotallingItem then "~" else "&nbsp;&nbsp;"
      some
        { calculation := "**" ++ paddedRequestCount ++ "** " ++ tr "api.requestUnit"
            ++ " @ **$" ++ costFormatted ++ tilde ++ "**",
          totalDollars := "$" ++ toFixed2 totalDollars,
          description := description,
          modelNameForTooltip := some parsedModelName,
          isDiscounted := some (includesStr (strToLower description) "discounted") }

/-- The item loop of `fetchMonthData` (lines 364-485): skip items without
`cents`; process mid-month payment lines through `processMidMonthPayment`
(pushing their synthetic item and updating the running total); otherwise
push the parsed regular item, if any.  Pushing to the `usageItems` array is
modelled by consing the produced item onto the recursive result, which
yields the same final list. -/
def processInvoiceItems (gm : String → Option String)
    (paddingWidth costPaddingWidth : Nat) (midMonthPayment : ℚ) :
    List InvoiceItem → List UsageItem × ℚ
  | [] => ([], midMonthPayment)
  | item :: rest =>
    match item.cents with
    | none => processInvoiceItems gm paddingWidth costPaddingWidth midMonthPayment rest
    | some c =>
      match processMidMonthPayment item midMonthPayment with
      | some (updatedTotal, usageItem) =>
        let r := processInvoiceItems gm paddingWidth costPaddingWidth updatedTotal rest
        (usageItem :: r.1, r.2)
      | none =>
        match regularItem gm paddingWidth costPaddingWidth item.description c with
        | some u =>
          let r := processInvoiceItems gm paddingWidth costPaddingWidth midMonthPayment rest
          (u :: r.1, r.2)
        | none => processInvoiceItems gm paddingWidth costPaddingWidth midMonthPayment rest

/-- The pure core of `fetchMonthData` of `src/services/database.ts` (lines
346-510), applied to an already-fetched invoice response: computes the
padding widths, folds the item loop, and copies
`hasUnpaidMidMonthInvoice ?? false` through. -/
def fetchMonthData (gm : String → Option String)
    (invoiceData : MonthlyInvoiceApiResponse) : MonthData :=
  let items := invoiceData.items.getD []
  let r :=
    if items.length > 0 then
      let pads := calculatePaddingWidths items
      processInvoiceItems gm pads.1 pads.2 0 items
    else ([], 0)
  { items := r.1,
    hasUnpaidMidMonthInvoice := invoiceData.hasUnpaidMidMonthInvoice.getD false,
    midMonthPayment := r.2 }

/-! ## Billing-period anchor (`fetchCursorStats`, `src/services/database.ts`,
lines 553-587)

The premium-quota resolution and the month fetches are network effects; the
month fetch is passed in as a function `monthData : Nat → Int → MonthData`
(what `fetchMonthData token month year` resolves to), so that the returned
record exhibits exactly which two months are fetched. -/

/-- The `premiumRequests` component of `CursorStats`. -/
structure PremiumRequests where
  current : ℚ
  limit : ℚ
  startOfMonth : String
deriving DecidableEq

/-- One month entry of `CursorStats`. -/
structure MonthlyStats where
  month : Nat
  year : Int
  usageBasedPricing : MonthData
deriving DecidableEq

/-- The consolidated snapshot returned by `fetchCursorStats`. -/
structure CursorStats where
  currentMonth : MonthlyStats
  lastMonth : MonthlyStats
  premiumRequests : PremiumRequests
deriving DecidableEq

/-- The billing-period computation and month fetches of `fetchCursorStats`
(lines 553-587): `usageBasedBillingDay = 3`; if the day of month is before
it, the active month rolls back by one (year decremented exactly on the
January to December rollover); the preceding month is then derived from the
active month with its own rollover; both months are fetched. -/
def fetchCursorStats (monthData : Nat → Int → MonthData)
    (premiumRequests : PremiumRequests) (day month : Nat) (year : Int) :
    CursorStats :=
  let usageBasedBillingDay := 3
  let m0 := month
  let y0 := year
  let m1 := if day < usageBasedBillingDay then (if m0 == 1 then 12 else m0 - 1) else m0
  let y1 := if day < usageBasedBillingDay then (if m1 == 12 then y0 - 1 else y0) else y0
  let usageBasedLastMonth := if m1 == 1 then 12 else m1 - 1
  let usageBasedLastYear := if m1 == 1 then y1 - 1 else y1
  { currentMonth :=
      { month := m1, year := y1, usageBasedPricing := monthData m1 y1 },
    lastMonth :=
      { month := usageBasedLastMonth, year := usageBasedLastYear,
        usageBasedPricing := monthData usageBasedLastMonth usageBasedLastYear },
    premiumRequests := premiumRequests }

/-- The calendar-previous month, written from the spec sentence
"the immediately preceding month" (for comparison with the code's rollover
arithmetic). -/
def specPrevMonth (month : Nat) (year : Int) : Nat × Int :=
  if month = 1 then (12, year - 1) else (month - 1, year)

/-! ## Month selection and percentage (`src/utils/updateStats.ts`) -/

/-- `updateStats` line 126:
`Math.round((stats.premiumRequests.current / stats.premiumRequests.limit) * 100)`,
evaluated in JS float semantics (`JSNum`). -/
def premiumPercent (stats : CursorStats) : JSNum :=
  jsRound (jsMul (jsDiv (.num stats.premiumRequests.current)
                        (.num stats.premiumRequests.limit))
                 (.num 100))

/-- `updateStats` lines 131-133:
`stats.currentMonth.usageBasedPricing.items.length > 0 ? stats.currentMonth
: stats.lastMonth`. -/
def selectActiveMonthData (stats : CursorStats) : MonthlyStats :=
  if stats.currentMonth.usageBasedPricing.items.length > 0 then
    stats.currentMonth
  else stats.lastMonth

/-! ## Unknown-model tracking (`src/utils/updateStats.ts`, lines 396-403)

The `detectedUnknownModels` JS `Set` is modelled as a list in insertion
order (a JS `Set` preserves insertion order; `add` of an exact duplicate is
a no-op, which the near-duplicate guard already subsumes). -/

/-- The guarded add into `detectedUnknownModels`: the term is added unless
some existing entry `d` satisfies
`d.toLowerCase().includes(term.toLowerCase()) ||
term.toLowerCase().includes(d.toLowerCase())`. -/
def addDetectedUnknownModel (detected : List String) (term : String) :
    List String :=
  let alreadyPresent := detected.any (fun d =>
    includesStr (strToLower d) (strToLower term) || includesStr (strToLower term) (strToLower d))
  if alreadyPresent then detected else detected ++ [term]

/-! ## Team membership resolver (`src/services/team.ts`, lines 80-194)

The three network calls (`/api/usage`, `/api/dashboard/teams`,
`/api/dashboard/team`) are external; their outcomes are parameters.
`jwt.decode` is an external library; its extracted `sub` claim is the
`jwtSub` parameter.  `saveUserCache` swallows its own file-system errors, so
the cache write is modelled by the second component of the result: `some
record` when the invocation persists a record, `none` when it does not. -/

/-- The persisted membership cache record (`UserCache`). -/
structure UserCache where
  userId : Nat
  jwtSub : Option String
  isTeamMember : Bool
  teamId : Option Nat
  lastChecked : Nat
  startOfMonth : String
deriving DecidableEq

/-- `/api/usage` response, restricted to the field `checkTeamMembership`
reads. -/
structure CursorUsageResponse where
  startOfMonth : String
deriving DecidableEq

/-- `/api/dashboard/teams` response: `{ teams?: [{ id }] }`, modelled by the
list of team ids. -/
structure TeamsResponse where
  teams : Option (List Nat)
deriving DecidableEq

/-- `/api/dashboard/team` response, restricted to the field read. -/
structure TeamMemberInfo where
  userId : Nat
deriving DecidableEq

/-- The result of `checkTeamMembership`. -/
structure TeamMembership where
  isTeamMember : Bool
  teamId : Option Nat
  userId : Option Nat
  startOfMonth : String
deriving DecidableEq

/-- JS truthiness of `teamId` in `if (isTeamMember && teamId)`:
`undefined` and `0` are falsy. -/
def optNatTruthy : Option Nat → Bool
  | none => false
  | some n => n != 0

/-- The cache fast path condition of `checkTeamMembership` (line 92):
`cache && cache.jwtSub === jwtSub && cache.startOfMonth`. -/
def cacheHit (jwtSub : Option String) : Option UserCache → Bool
  | none => false
  | some c => c.jwtSub == jwtSub && c.startOfMonth != ""

/-- The guard of the team-details call (line 141):
`isTeamMember && teamId`, with JS truthiness of the id. -/
def teamDetailsNeeded (teamsResp : TeamsResponse) : Bool :=
  decide ((teamsResp.teams.getD []).length > 0) &&
    optNatTruthy (teamsResp.teams.getD []).head?

/-- `checkTeamMembership` of `src/services/team.ts` (lines 80-194).
On a cache hit the cached record is returned and nothing is written.
Otherwise the usage endpoint, the teams endpoint and (when the subject
belongs to a team with a truthy id) the team-details endpoint are consulted
in order; a fresh cache record is persisted before returning.  Any failing
network call makes the whole invocation return that error (the `catch`
rethrows) and no cache record is written. -/
def checkTeamMembership (jwtSub : Option String) (cache : Option UserCache)
    (now : Nat)
    (usageCall : Except String CursorUsageResponse)
    (teamsCall : Except String TeamsResponse)
    (teamCall : Except String TeamMemberInfo) :
    Except String TeamMembership × Option UserCache :=
  if cacheHit jwtSub cache then
    match cache with
    | some c =>
      (.ok { isTeamMember := c.isTeamMember, teamId := c.teamId,
             userId := some c.userId, startOfMonth := c.startOfMonth }, none)
    | none => (.error "unreachable", none)
  else
    match usageCall with
    | .error e => (.error e, none)
    | .ok usage =>
      match teamsCall with
      | .error e => (.error e, none)
      | .ok teamsResp =>
        let isTeamMember := (teamsResp.teams.getD []).length > 0
        let teamId := (teamsResp.teams.getD []).head?
        let teamUserId : Except String (Option Nat) :=
          if teamDetailsNeeded teamsResp then
            match teamCall with
            | .error e => .error e
            | .ok tm => .ok (some tm.userId)
          else .ok none
        match teamUserId with
        | .error e => (.error e, none)
        | .ok uid =>
          let cacheData : UserCache :=
            { userId := uid.getD 0, jwtSub := jwtSub,
              isTeamMember := isTeamMember, teamId := teamId,
              lastChecked := now, startOfMonth := usage.startOfMonth }
          (.ok { isTeamMember := isTeamMember, teamId := teamId,
                 userId := uid, startOfMonth := usage.startOfMonth },
           some cacheData)

/-! ## Theorems -/

/-- C7: USD identity round-trip: for every amount `x` and every outcome of
the exchange-rate fetch, `convertAmount x "USD"` returns `x` unchanged with
the `$` symbol and does not invoke `fetchExchangeRates` (hence performs no
network fetch and no cache read or write). -/
theorem c7_usd_identity (x : ℚ) (fetched : Except String CurrencyRates) :
    convertAmount x "USD" fetched = (⟨x, "$"⟩, false) := rfl

/-- C6: currency conversion degrades instead of failing: for every amount
and target currency, if the exchange-rate fetch fails the original USD
amount is returned with the USD symbol, and likewise if the target currency
is absent from the rate mapping.  `convertAmount` is a total function (the
catch-all branch of the source), so no error escapes its boundary. -/
theorem c6_conversion_degrades (x : ℚ) (target : String) :
    (∀ e : String, (convertAmount x target (.error e)).1 = ⟨x, "$"⟩) ∧
    (∀ rates : CurrencyRates, lookupRate rates.usd (strToLower target) = none →
      (convertAmount x target (.ok rates)).1 = ⟨x, "$"⟩) := by
  constructor
  · intro e
    unfold convertAmount
    split
    · rfl
    · rfl
  · intro rates h
    unfold convertAmount
    split
    · rfl
    · simp [h]

/-- Witness for C6 at a concrete failing fetch and a concrete missing
currency. -/
theorem c6_conversion_degrades_witness :
    (convertAmount 5 "EUR" (.error "rate feed unreachable")).1 = ⟨5, "$"⟩ ∧
    (convertAmount 5 "EUR" (.ok ⟨"2026-10-12", [("gbp", 2)]⟩)).1 = ⟨5, "$"⟩ :=
  ⟨(c6_conversion_degrades 5 "EUR").1 "rate feed unreachable",
   (c6_conversion_degrades 5 "EUR").2 ⟨"2026-10-12", [("gbp", 2)]⟩ (by decide)⟩

/-- C10: `checkUsageBasedStatus` never propagates an error: it is a total
function of the outcome of the usage-limit call, and for every failing call
it returns `{ isEnabled := false }` with no `limit` field. -/
theorem c10_usage_based_status_degrades (e : String) :
    checkUsageBasedStatus (.error e) = { isEnabled := false, limit := none } := rfl

/-- C3 (the code violates the claim): at a snapshot whose
`premiumRequests.limit` is zero, the percentage computation of
`updateStats` (line 126) divides by zero and produces `Infinity`
(and `NaN` when `current` is also zero), not a finite number. -/
theorem c3_premium_percent_division_by_zero :
    premiumPercent
      { currentMonth := ⟨1, 2026, ⟨[], false, 0⟩⟩,
        lastMonth := ⟨12, 2025, ⟨[], false, 0⟩⟩,
        premiumRequests := ⟨50, 0, "2026-01-03"⟩ } = JSNum.posInf ∧
    jsIsFinite (premiumPercent
      { currentMonth := ⟨1, 2026, ⟨[], false, 0⟩⟩,
        lastMonth := ⟨12, 2025, ⟨[], false, 0⟩⟩,
        premiumRequests := ⟨50, 0, "2026-01-03"⟩ }) = false ∧
    premiumPercent
      { currentMonth := ⟨1, 2026, ⟨[], false, 0⟩⟩,
        lastMonth := ⟨12, 2025, ⟨[], false, 0⟩⟩,
        premiumRequests := ⟨0, 0, "2026-01-03"⟩ } = JSNum.nan := by
  refine ⟨?_, ?_, ?_⟩ <;> decide

/-- C5: month selection fallback: if the active-period month has zero usage
items (and the preceding month is nonempty), the preceding month is
selected; if the active-period month has at least one item, it is
selected. -/
theorem c5_month_selection_fallback (stats : CursorStats) :
    (stats.currentMonth.usageBasedPricing.items.length = 0 →
      stats.lastMonth.usageBasedPricing.items.length > 0 →
      selectActiveMonthData stats = stats.lastMonth) ∧
    (stats.currentMonth.usageBasedPricing.items.length > 0 →
      selectActiveMonthData stats = stats.currentMonth) := by
  constructor
  · intro h _
    unfold selectActiveMonthData
    rw [if_neg]
    omega
  · intro h
    unfold selectActiveMonthData
    exact if_pos h

/-- Witness for C5: a concrete snapshot with an empty active month and a
one-item preceding month selects the preceding month. -/
theorem c5_month_selection_fallback_witness :
    selectActiveMonthData
      { currentMonth := ⟨10, 2026, ⟨[], false, 0⟩⟩,
        lastMonth := ⟨9, 2026,
          ⟨[⟨"**5** req @ $0.040", "$0.20", "5 fast requests", some "gpt-4", some false⟩],
           false, 0⟩⟩,
        premiumRequests := ⟨10, 500, "2026-10-03"⟩ }
      = ⟨9, 2026,
          ⟨[⟨"**5** req @ $0.040", "$0.20", "5 fast requests", some "gpt-4", some false⟩],
           false, 0⟩⟩ :=
  (c5_month_selection_fallback _).1 rfl (by decide)

/-- C9: unknown-model deduplication: a term is added to
`detectedUnknownModels` exactly when no existing entry is a
case-insensitive substring of the term and the term is a case-insensitive
substring of no existing entry; in particular observing `"claude-9-mega"`
and then `"Claude-9-Mega"` leaves exactly one entry. -/
theorem c9_unknown_model_dedup :
    (∀ (S : List String) (term : String),
      (∃ d ∈ S, includesStr (strToLower d) (strToLower term) = true ∨
                includesStr (strToLower term) (strToLower d) = true) →
      addDetectedUnknownModel S term = S) ∧
    (∀ (S : List String) (term : String),
      (∀ d ∈ S, includesStr (strToLower d) (strToLower term) = false ∧
                includesStr (strToLower term) (strToLower d) = false) →
      addDetectedUnknownModel S term = S ++ [term]) ∧
    addDetectedUnknownModel (addDetectedUnknownModel [] "claude-9-mega") "Claude-9-Mega"
      = ["claude-9-mega"] := by
  refine ⟨?_, ?_, ?_⟩
  · intro S term h
    unfold addDetectedUnknownModel
    rw [if_pos]
    rw [List.any_eq_true]
    obtain ⟨d, hd, hrel⟩ := h
    refine ⟨d, hd, ?_⟩
    rcases hrel with h1 | h1 <;> simp [h1]
  · intro S term h
    unfold addDetectedUnknownModel
    rw [if_neg]
    rw [List.any_eq_true]
    rintro ⟨d, hd, hrel⟩
    have := h d hd
    rw [this.1, this.2] at hrel
    simp at hrel
  · decide

/-- Witness for C9: the guarded add at a concrete near-duplicate
(`"Claude-9-Mega"` against existing entry `"claude-9-mega"`) leaves the set
unchanged. -/
theorem c9_unknown_model_dedup_witness :
    addDetectedUnknownModel ["claude-9-mega"] "Claude-9-Mega" = ["claude-9-mega"] :=
  c9_unknown_model_dedup.1 ["claude-9-mega"] "Claude-9-Mega"
    ⟨"claude-9-mega", by simp, Or.inl (by decide)⟩

/-- C2 (counterexample to the claimed priority order): a description in
which both the extra-fast-premium phrase (with parenthesized sub-phrase
`"mystery-model"`) and the known-model pattern (capturing
`"claude-3-opus"`) match resolves to the known-model label, not to the
extra-fast sub-phrase: the known-model strategy sits *before* the
extra-fast strategy in `modelParsingStrategies`. -/
theorem c2_counterexample :
    includesStr "3 extra fast premium requests (mystery-model) beyond claude-3-opus"
      "extra fast premium request" = true ∧
    extraFastModelMatch "3 extra fast premium requests (mystery-model) beyond claude-3-opus"
      = some "mystery-model" ∧
    applyModelParsingStrategies
      "3 extra fast premium requests (mystery-model) beyond claude-3-opus"
      (some "claude-3-opus")
      = { modelName := "claude-3-opus", isToolCall := false } ∧
    ("claude-3-opus" : String) ≠ "mystery-model" := by
  refine ⟨by decide, by decide, by decide, by decide⟩

/-- C2 (amended): the matcher priority order of `modelParsingStrategies` is
tool-calls first, then the curated known-model pattern, and the
extra-fast-premium phrase only last; in particular whenever both the
known-model pattern and the extra-fast phrase match (and the tool-calls
phrase does not), the resulting label is the known-model capture. -/
theorem c2_model_strategy_priority (description : String)
    (specificModelMatch : Option String) :
    (includesStr description "tool calls" = true →
      applyModelParsingStrategies description specificModelMatch
        = { modelName := tr "api.toolCalls", isToolCall := true }) ∧
    (includesStr description "tool calls" = false → ∀ m,
      specificModelMatch = some m →
      applyModelParsingStrategies description specificModelMatch
        = { modelName := m, isToolCall := false }) ∧
    (includesStr description "tool calls" = false →
      specificModelMatch = none →
      includesStr description "extra fast premium request" = true →
      applyModelParsingStrategies description specificModelMatch
        = { modelName := (extraFastModelMatch description).getD (tr "api.fastPremium"),
            isToolCall := false }) := by
  refine ⟨?_, ?_, ?_⟩
  · intro h1
    simp [applyModelParsingStrategies, modelParsingStrategies, List.find?, h1]
  · intro h1 m h2
    subst h2
    simp [applyModelParsingStrategies, modelParsingStrategies, List.find?, h1]
  · intro h1 h2 h3
    subst h2
    simp [applyModelParsingStrategies, modelParsingStrategies, List.find?, h1, h3]
    cases h : extraFastModelMatch description <;> simp [h]

/-- Witness for C2 (amended) at a concrete description where the known-model
pattern matched: the known-model capture wins. -/
theorem c2_model_strategy_priority_witness :
    applyModelParsingStrategies "12 discounted claude-3-opus requests"
      (some "claude-3-opus")
      = { modelName := "claude-3-opus", isToolCall := false } :=
  (c2_model_strategy_priority "12 discounted claude-3-opus requests"
    (some "claude-3-opus")).2.1 (by decide) "claude-3-opus" rfl

/-- C4: the billing-period anchor of `fetchCursorStats`: for a day of month
strictly before the billing cutoff day 3 the active period is the previous
calendar month (year decremented exactly on the January→December rollover),
otherwise the current calendar month; and the returned snapshot carries the
fetched month data of both the active month and the immediately preceding
month. -/
theorem c4_billing_period_anchor (monthData : Nat → Int → MonthData)
    (premium : PremiumRequests) (day month : Nat) (year : Int)
    (h1 : 1 ≤ month) (h2 : month ≤ 12) :
    (day < 3 → month = 1 →
      (fetchCursorStats monthData premium day month year).currentMonth.month = 12 ∧
      (fetchCursorStats monthData premium day month year).currentMonth.year = year - 1) ∧
    (day < 3 → month ≠ 1 →
      (fetchCursorStats monthData premium day month year).currentMonth.month = month - 1 ∧
      (fetchCursorStats monthData premium day month year).currentMonth.year = year) ∧
    (¬ day < 3 →
      (fetchCursorStats monthData premium day month year).currentMonth.month = month ∧
      (fetchCursorStats monthData premium day month year).currentMonth.year = year) ∧
    ((fetchCursorStats monthData premium day month year).lastMonth.month,
     (fetchCursorStats monthData premium day month year).lastMonth.year)
      = specPrevMonth (fetchCursorStats monthData premium day month year).currentMonth.month
          (fetchCursorStats monthData premium day month year).currentMonth.year ∧
    (fetchCursorStats monthData premium day month year).currentMonth.usageBasedPricing
      = monthData (fetchCursorStats monthData premium day month year).currentMonth.month
          (fetchCursorStats monthData premium day month year).currentMonth.year ∧
    (fetchCursorStats monthData premium day month year).lastMonth.usageBasedPricing
      = monthData (fetchCursorStats monthData premium day month year).lastMonth.month
          (fetchCursorStats monthData premium day month year).lastMonth.year := by
  by_cases hd : day < 3
  · by_cases hm : month = 1
    · subst hm
      simp [fetchCursorStats, hd, specPrevMonth]
    · have hm1 : (month == 1) = false := by simp [hm]
      have h12 : (month - 1 == 12) = false := by simp; omega
      by_cases hm2 : month = 2
      · subst hm2
        simp [fetchCursorStats, hd, specPrevMonth]
      · have hm21 : (month - 1 == 1) = false := by simp; omega
        have hm21p : ¬ (month - 1 = 1) := by omega
        simp [fetchCursorStats, hd, hm, hm1, h12, hm21, hm21p, specPrevMonth]
  · by_cases hm : month = 1
    · subst hm
      simp [fetchCursorStats, hd, specPrevMonth]
    · have hm1 : (month == 1) = false := by simp [hm]
      simp [fetchCursorStats, hd, hm, hm1, specPrevMonth]

/-- Witness for C4 at day 1 of January 2026: the active period is December
2025 and the preceding fetched month is November 2025. -/
theorem c4_billing_period_anchor_witness :
    (1 : Nat) ≤ 1 ∧ (1 : Nat) ≤ 12 ∧
    ((fetchCursorStats (fun _ _ => ⟨[], false, 0⟩) ⟨0, 500, ""⟩ 1 1 2026).currentMonth.month = 12 ∧
     (fetchCursorStats (fun _ _ => ⟨[], false, 0⟩) ⟨0, 500, ""⟩ 1 1 2026).currentMonth.year = 2025) :=
  ⟨by decide, by decide,
    (c4_billing_period_anchor (fun _ _ => ⟨[], false, 0⟩) ⟨0, 500, ""⟩ 1 1 2026
      (by decide) (by decide)).1 (by decide) rfl⟩

/-- C8: resolver atomicity on failure: whenever any of the network calls of
`checkTeamMembership` (individual usage, team roster, team member list)
fails, that error is the result of the invocation and no membership cache
record is persisted (the cache-write component is `none`); and in general
an erroneous result never persists a record. -/
theorem c8_membership_failure_atomicity (jwtSub : Option String)
    (cache : Option UserCache) (now : Nat)
    (usageCall : Except String CursorUsageResponse)
    (teamsCall : Except String TeamsResponse)
    (teamCall : Except String TeamMemberInfo) :
    (∀ e, (checkTeamMembership jwtSub cache now usageCall teamsCall teamCall).1 = .error e →
      (checkTeamMembership jwtSub cache now usageCall teamsCall teamCall).2 = none) ∧
    (cacheHit jwtSub cache = false → ∀ e, usageCall = .error e →
      checkTeamMembership jwtSub cache now usageCall teamsCall teamCall = (.error e, none)) ∧
    (cacheHit jwtSub cache = false → ∀ u e, usageCall = .ok u → teamsCall = .error e →
      checkTeamMembership jwtSub cache now usageCall teamsCall teamCall = (.error e, none)) ∧
    (cacheHit jwtSub cache = false → ∀ u tResp e, usageCall = .ok u →
      teamsCall = .ok tResp → teamDetailsNeeded tResp = true → teamCall = .error e →
      checkTeamMembership jwtSub cache now usageCall teamsCall teamCall = (.error e, none)) := by
  refine ⟨?_, ?_, ?_, ?_⟩
  · intro e
    by_cases hc : cacheHit jwtSub cache <;>
      cases cache <;> cases usageCall <;> cases teamsCall <;> cases teamCall <;>
      simp [checkTeamMembership, hc] <;>
      split <;> simp
  · intro hc e he
    subst he
    simp [checkTeamMembership, hc]
  · intro hc u e hu ht
    subst hu; subst ht
    simp [checkTeamMembership, hc]
  · intro hc u tResp e hu ht hneed hteam
    subst hu; subst ht; subst hteam
    simp [checkTeamMembership, hc, hneed]

/-- Witness for C8: with an empty cache and a failing individual-usage call,
the invocation returns that error and writes nothing. -/
theorem c8_membership_failure_atomicity_witness :
    checkTeamMembership none none 0 (.error "usage endpoint down")
      (.ok ⟨some [5]⟩) (.ok ⟨7⟩)
      = (.error "usage endpoint down", none) :=
  (c8_membership_failure_atomicity none none 0 (.error "usage endpoint down")
    (.ok ⟨some [5]⟩) (.ok ⟨7⟩)).2.1 (by decide) "usage endpoint down" rfl

/-! ### C1: mid-month payment accumulation -/

/-- A usage item whose description carries the mid-month marker (this is
how `updateStats.ts` recognizes the synthetic payment items). -/
def isMidMonthItem (u : UsageItem) : Bool :=
  includesStr u.description "Mid-month usage paid"

/-- The absolute credit amounts (in dollars) of the mid-month payment lines
of an invoice — marker present and `cents` present — in order. -/
def midMonthCredits (items : List InvoiceItem) : List ℚ :=
  items.filterMap (fun item =>
    match item.cents with
    | some c =>
      if includesStr item.description "Mid-month usage paid" then
        some (|(c : ℚ)| / 100)
      else none
    | none => none)

/-- Running totals of a list of amounts starting from `t0`:
`runningTotals t0 [a, b] = [t0 + a, t0 + a + b]`. -/
def runningTotals (t0 : ℚ) : List ℚ → List ℚ
  | [] => []
  | a :: l => (t0 + a) :: runningTotals (t0 + a) l

theorem regularItem_description (gm : String → Option String)
    (pw cpw : Nat) (d : String) (c : Int) (u : UsageItem)
    (h : regularItem gm pw cpw d c = some u) : u.description = d := by
  unfold regularItem at h
  split at h
  · exact absurd h (by simp)
  · split at h
    · exact absurd h (by simp)
    · cases h
      rfl

theorem processMidMonthPayment_eq_some (item : InvoiceItem) (t0 : ℚ) (c : Int)
    (hm : includesStr item.description "Mid-month usage paid" = true)
    (hc : item.cents = some c) :
    processMidMonthPayment item t0
      = some (t0 + |(c : ℚ)| / 100,
          midMonthUsageItem item.description (t0 + |(c : ℚ)| / 100)) := by
  simp [processMidMonthPayment, hm, hc]

theorem processMidMonthPayment_eq_none (item : InvoiceItem) (t0 : ℚ)
    (hm : includesStr item.description "Mid-month usage paid" = false) :
    processMidMonthPayment item t0 = none := by
  simp [processMidMonthPayment, hm]

theorem processInvoiceItems_midMonth (gm : String → Option String)
    (pw cpw : Nat) (items : List InvoiceItem) : ∀ t0 : ℚ,
    ((processInvoiceItems gm pw cpw t0 items).1.filter isMidMonthItem).map
        (fun u => u.totalDollars)
      = (runningTotals t0 (midMonthCredits items)).map (fun q => "-$" ++ toFixed2 q) ∧
    (processInvoiceItems gm pw cpw t0 items).2 = t0 + (midMonthCredits items).sum := by
  induction items with
  | nil =>
    intro t0
    simp [processInvoiceItems, midMonthCredits, runningTotals]
  | cons item rest ih =>
    intro t0
    cases hc : item.cents with
    | none =>
      obtain ⟨h1, h2⟩ := ih t0
      simp only [processInvoiceItems, hc]
      constructor
      · rw [h1]
        simp [midMonthCredits, List.filterMap_cons, hc]
      · rw [h2]
        simp [midMonthCredits, List.filterMap_cons, hc]
    | some c =>
      by_cases hm : includesStr item.description "Mid-month usage paid" = true
      · obtain ⟨h1, h2⟩ := ih (t0 + |(c : ℚ)| / 100)
        simp only [processInvoiceItems, hc, processMidMonthPayment_eq_some item t0 c hm hc]
        have hmark : isMidMonthItem (midMonthUsageItem item.description (t0 + |(c : ℚ)| / 100)) = true := by
          simp [isMidMonthItem, midMonthUsageItem, hm]
        constructor
        · rw [List.filter_cons_of_pos (by rw [hmark])]
          rw [List.map_cons, h1]
          simp [midMonthCredits, List.filterMap_cons, hc, hm, runningTotals,
            midMonthUsageItem]
        · rw [h2]
          simp [midMonthCredits, List.filterMap_cons, hc, hm]
          ring
      · rw [Bool.not_eq_true] at hm
        obtain ⟨h1, h2⟩ := ih t0
        have hcred :
            midMonthCredits (item :: rest) = midMonthCredits rest := by
          simp [midMonthCredits, List.filterMap_cons, hc, hm]
        simp only [processInvoiceItems, hc, processMidMonthPayment_eq_none item t0 hm]
        cases hr : regularItem gm pw cpw item.description c with
        | none =>
          rw [hcred]
          exact ⟨h1, h2⟩
        | some u =>
          have hd := regularItem_description gm pw cpw item.description c u hr
          have hum : isMidMonthItem u = false := by
            simp [isMidMonthItem, hd, hm]
          rw [hcred]
          constructor
          · rw [List.filter_cons_of_neg (by rw [hum]; exact Bool.false_ne_true)]
            exact h1
          · exact h2

theorem fetchMonthData_items_of_pos (gm : String → Option String)
    (invoiceData : MonthlyInvoiceApiResponse)
    (h : (invoiceData.items.getD []).length > 0) :
    (fetchMonthData gm invoiceData).items
      = (processInvoiceItems gm
          (calculatePaddingWidths (invoiceData.items.getD [])).1
          (calculatePaddingWidths (invoiceData.items.getD [])).2
          0 (invoiceData.items.getD [])).1 := by
  simp [fetchMonthData, h]

theorem fetchMonthData_payment_of_pos (gm : String → Option String)
    (invoiceData : MonthlyInvoiceApiResponse)
    (h : (invoiceData.items.getD []).length > 0) :
    (fetchMonthData gm invoiceData).midMonthPayment
      = (processInvoiceItems gm
          (calculatePaddingWidths (invoiceData.items.getD [])).1
          (calculatePaddingWidths (invoiceData.items.getD [])).2
          0 (invoiceData.items.getD [])).2 := by
  simp [fetchMonthData, h]

/-- C1 (amended): for every invoice, the built month record contains one
synthetic payment item per mid-month credit line (marker present and
`cents` present), in order; the displayed total of the k-th such item
equals the running sum of the absolute credit amounts through the k-th
credit line; and `midMonthPayment` equals the total sum of those absolute
credit amounts. -/
theorem c1_mid_month_payment_accumulation (gm : String → Option String)
    (invoiceData : MonthlyInvoiceApiResponse) :
    (((fetchMonthData gm invoiceData).items.filter isMidMonthItem).map
        (fun u => u.totalDollars)
      = (runningTotals 0 (midMonthCredits (invoiceData.items.getD []))).map
          (fun q => "-$" ++ toFixed2 q)) ∧
    (fetchMonthData gm invoiceData).midMonthPayment
      = (midMonthCredits (invoiceData.items.getD [])).sum := by
  by_cases h : (invoiceData.items.getD []).length > 0
  · obtain ⟨h1, h2⟩ := processInvoiceItems_midMonth gm
      (calculatePaddingWidths (invoiceData.items.getD [])).1
      (calculatePaddingWidths (invoiceData.items.getD [])).2
      (invoiceData.items.getD []) 0
    constructor
    · rw [fetchMonthData_items_of_pos gm invoiceData h, h1]
    · rw [fetchMonthData_payment_of_pos gm invoiceData h, h2]
      ring
  · have hempty : invoiceData.items.getD [] = [] := by
      cases hv : invoiceData.items.getD [] with
      | nil => rfl
      | cons a l => rw [hv] at h; simp at h
    have hi : (fetchMonthData gm invoiceData).items = [] := by
      simp [fetchMonthData, hempty]
    have hp : (fetchMonthData gm invoiceData).midMonthPayment = 0 := by
      simp [fetchMonthData, hempty]
    rw [hi, hp, hempty]
    simp [midMonthCredits, runningTotals]

/-- The two-credit-line invoice (`cents = -500` then `cents = -300`) used to
test the mid-month accumulation. -/
def twoCreditInvoice : MonthlyInvoiceApiResponse :=
  { items := some
      [{ description := "Mid-month usage paid", cents := some (-500) },
       { description := "Mid-month usage paid", cents := some (-300) }],
    hasUnpaidMidMonthInvoice := some false }

/-- C1 (counterexample to "exactly one synthetic payment item"): an invoice
with two mid-month credit lines (`cents = -500` then `cents = -300`)
produces a month record with *two* synthetic payment items — showing
`$5.00` and `$8.00` respectively — not a single item, while
`midMonthPayment = 8`. -/
theorem c1_counterexample :
    (((fetchMonthData (fun _ => none) twoCreditInvoice).items.filter
        isMidMonthItem).length = 2 ∧ (2 : Nat) ≠ 1) ∧
    ((fetchMonthData (fun _ => none) twoCreditInvoice).items.filter
        isMidMonthItem).map (fun u => u.totalDollars) = ["-$5.00", "-$8.00"] ∧
    (fetchMonthData (fun _ => none) twoCreditInvoice).midMonthPayment = 8 := by
  have hpos : ((twoCreditInvoice.items).getD []).length > 0 := by decide
  obtain ⟨h1, h2⟩ := processInvoiceItems_midMonth (fun _ => none)
    (calculatePaddingWidths (twoCreditInvoice.items.getD [])).1
    (calculatePaddingWidths (twoCreditInvoice.items.getD [])).2
    (twoCreditInvoice.items.getD []) 0
  have hitems := fetchMonthData_items_of_pos (fun _ => none) twoCreditInvoice hpos
  have hpay := fetchMonthData_payment_of_pos (fun _ => none) twoCreditInvoice hpos
  have hcred : midMonthCredits (twoCreditInvoice.items.getD []) = [5, 3] := by
    simp only [twoCreditInvoice, Option.getD_some, midMonthCredits,
      List.filterMap_cons, List.filterMap_nil,
      show includesStr "Mid-month usage paid" "Mid-month usage paid" = true from by decide,
      if_true]
    norm_num
  have hrun : runningTotals 0 (midMonthCredits (twoCreditInvoice.items.getD []))
      = [5, 8] := by
    rw [hcred]
    simp only [runningTotals]
    norm_num
  have hr5 : round ((5 : ℚ) * 100) = 500 := by norm_num [round_eq]
  have hr8 : round ((8 : ℚ) * 100) = 800 := by norm_num [round_eq]
  have h5 : toFixed2 5 = "5.00" := by
    simp only [toFixed2]
    rw [hr5]
    decide
  have h8 : toFixed2 8 = "8.00" := by
    simp only [toFixed2]
    rw [hr8]
    decide
  have hmap : ((fetchMonthData (fun _ => none) twoCreditInvoice).items.filter
      isMidMonthItem).map (fun u => u.totalDollars) = ["-$5.00", "-$8.00"] := by
    rw [hitems, h1, hrun]
    simp only [List.map_cons, List.map_nil, h5, h8]
    decide
  refine ⟨⟨?_, by decide⟩, hmap, ?_⟩
  · have hlen := congrArg List.length hmap
    simpa using hlen
  · rw [hpay, h2, hcred]
    norm_num

end CursorStats
